import Mathlib

/-!
Verification development for the piksi_tools console excerpt.

The file shallowly embeds two Python modules:

  * piksi_tools/console/output_list.py : a bounded, filterable,
    pausable list of log entries (class OutputList with LogItem),
  * piksi_tools/console/settings_report.py : a fire-and-forget
    settings telemetry reporter.

Python lists become Lean lists, the fatal assertion inside
append_truncate becomes an Option (none models an assertion failure),
the mutable OutputList object becomes explicit state passing, and the
side effects we reason about (log-file lines, HTTP posts) are returned
as explicit values.  Timestamps, which Python reads from the wall
clock at LogItem construction, are passed in as extra string
parameters.  The source file fixes max_len to an integer (default
250); the claims under study all assume an integer max_len, so it is
modelled as a Nat.
-/

/-! Log level constants, verbatim from output_list.py. -/

def LOG_EMERG : Int := 0
def LOG_ALERT : Int := 1
def LOG_CRIT : Int := 2
def LOG_ERROR : Int := 3
def LOG_WARN : Int := 4
def LOG_NOTICE : Int := 5
def LOG_INFO : Int := 6
def LOG_DEBUG : Int := 7

def CONSOLE_LOG_LEVEL : Int := -1
def DEFAULT_LOG_LEVEL : Int := -2

/-- UNMASKABLE_LEVELS from the source: the console level only. -/
def UNMASKABLE_LEVELS : List (Int × String) := [(CONSOLE_LOG_LEVEL, "CONSOLE")]

/-- SYSLOG_LEVELS from the source; the commented-out levels are absent.
These are the values selectable as a filter threshold. -/
def SYSLOG_LEVELS : List (Int × String) :=
  [(LOG_ERROR, "ERROR"), (LOG_WARN, "WARNING"), (LOG_INFO, "INFO"), (LOG_DEBUG, "DEBUG")]

/-- ALL_LOG_LEVELS combines the two tables. -/
def ALL_LOG_LEVELS : List (Int × String) := SYSLOG_LEVELS ++ UNMASKABLE_LEVELS

def DEFAULT_MAX_LEN : Nat := 250

/-! Python string blankness, as used by the guard
`if s and not s.isspace()` in write and write_level. -/

/-- Characters the Python 2 str.isspace method treats as whitespace. -/
def isPySpaceChar (c : Char) : Bool :=
  c = ' ' || c = '\t' || c = '\n' || c = '\r' || c = '\x0b' || c = '\x0c'

/-- Python str.isspace: nonempty and made of whitespace only. -/
def pyIsSpace (s : String) : Bool :=
  !s.data.isEmpty && s.data.all isPySpaceChar

/-- The guard `s and not s.isspace()`: a string is written only when it
is nonempty and not whitespace-only. -/
def pyNonBlank (s : String) : Bool :=
  !s.data.isEmpty && !(pyIsSpace s)

/-! LogItem. -/

/-- One entry of the output list: class LogItem of output_list.py.
The constructor takes msg and level and stamps the current time; here
the timestamp is an explicit field supplied by the caller. -/
structure LogItem where
  log_level : Int
  timestamp : String
  msg : String
deriving DecidableEq, Repr

/-- Method LogItem.matches_log_level_filter:
`return self.log_level <= log_level`. -/
def LogItem.matches_log_level_filter (it : LogItem) (log_level : Int) : Bool :=
  decide (it.log_level ≤ log_level)

/-- Method LogItem.print_to_log:
the string `"{0},{1},{2}\n".format(timestamp, log_level, msg)`. -/
def LogItem.print_to_log (it : LogItem) : String :=
  it.timestamp ++ "," ++ toString it.log_level ++ "," ++ it.msg ++ "\n"

/-! OutputList. -/

/-- State of class OutputList.  The trait _paused_buffer is spelled
paused_buffer (a leading underscore is reserved spelling in Lean).
The logfile handle is reduced to the boolean tfile; the lines written
through it are returned by the operations instead. -/
structure OutputList where
  unfiltered_list : List LogItem
  paused_buffer : List LogItem
  filtered_list : List LogItem
  log_level_filter : Int
  max_len : Nat
  paused : Bool
  tfile : Bool
deriving DecidableEq, Repr

/-- Constructor OutputList.__init__: buffers start empty (trait
defaults), paused starts False, tfile records whether a log file was
opened.  The filter threshold, a trait whose default is the first
SYSLOG_LEVELS key, is taken as a parameter f. -/
def OutputList.init (tfile : Bool) (f : Int) (m : Nat) : OutputList :=
  { unfiltered_list := []
    paused_buffer := []
    filtered_list := []
    log_level_filter := f
    max_len := m
    paused := false
    tfile := tfile }

/-- Method OutputList.append_truncate.  The Python body is

  if len(buffer) > self.max_len:
      assert (len(buffer) - self.max_len) == 1, "..."
      buffer.pop()
  buffer.insert(0, s)

pop removes the last element and insert(0, s) prepends.  A failing
assertion is modelled as none. -/
def OutputList.append_truncate (max_len : Nat) (buffer : List LogItem) (s : LogItem) :
    Option (List LogItem) :=
  if buffer.length > max_len then
    if buffer.length - max_len = 1 then some (s :: buffer.dropLast)
    else none
  else some (s :: buffer)

/-- Method OutputList.write.  Creates a CONSOLE_LOG_LEVEL LogItem from
a non-blank string, routes it to the paused buffer or to the
unfiltered list (and the filtered list when it passes the filter), and
when tfile is set appends one print_to_log record to the log file.
Returns the new state and the list of records written to the log
file. -/
def OutputList.write (s ts : String) (st : OutputList) :
    Option (OutputList × List String) :=
  if pyNonBlank s then
    let log : LogItem := ⟨CONSOLE_LOG_LEVEL, ts, s⟩
    let out : List String := if st.tfile then [log.print_to_log] else []
    if st.paused then
      match OutputList.append_truncate st.max_len st.paused_buffer log with
      | none => none
      | some pb => some ({ st with paused_buffer := pb }, out)
    else
      match OutputList.append_truncate st.max_len st.unfiltered_list log with
      | none => none
      | some ul =>
        if log.matches_log_level_filter st.log_level_filter then
          match OutputList.append_truncate st.max_len st.filtered_list log with
          | none => none
          | some fl =>
            some ({ st with unfiltered_list := ul, filtered_list := fl }, out)
        else some ({ st with unfiltered_list := ul }, out)
  else some (st, [])

/-- Method OutputList.write_level.  Same routing as write with a
caller-chosen level, but the source contains no log-file write: the
returned record list is always empty. -/
def OutputList.write_level (s : String) (level : Int) (ts : String) (st : OutputList) :
    Option (OutputList × List String) :=
  if pyNonBlank s then
    let log : LogItem := ⟨level, ts, s⟩
    if st.paused then
      match OutputList.append_truncate st.max_len st.paused_buffer log with
      | none => none
      | some pb => some ({ st with paused_buffer := pb }, [])
    else
      match OutputList.append_truncate st.max_len st.unfiltered_list log with
      | none => none
      | some ul =>
        if log.matches_log_level_filter st.log_level_filter then
          match OutputList.append_truncate st.max_len st.filtered_list log with
          | none => none
          | some fl =>
            some ({ st with unfiltered_list := ul, filtered_list := fl }, [])
        else some ({ st with unfiltered_list := ul }, [])
  else some (st, [])

/-- Method OutputList.clear: empties all three buffers. -/
def OutputList.clear (st : OutputList) : OutputList :=
  { st with paused_buffer := [], filtered_list := [], unfiltered_list := [] }

/-- Trait handler _log_level_filter_changed: rebuilds filtered_list
from unfiltered_list with the current threshold. -/
def OutputList.log_level_filter_changed (st : OutputList) : OutputList :=
  { st with
    filtered_list :=
      st.unfiltered_list.filter
        (fun item => item.matches_log_level_filter st.log_level_filter) }

/-- Trait handler _paused_changed: on entering the paused state the
live list is copied to the pause buffer; on leaving it the pause
buffer replaces the live list, the filtered list is rebuilt, and the
pause buffer is emptied. -/
def OutputList.paused_changed (st : OutputList) : OutputList :=
  if st.paused then
    { st with paused_buffer := st.unfiltered_list }
  else
    let st1 := { st with unfiltered_list := st.paused_buffer }
    let st2 := st1.log_level_filter_changed
    { st2 with paused_buffer := [] }

/-- Assigning the log_level_filter trait: the change handler fires
only when the value actually changes. -/
def OutputList.set_log_level_filter (st : OutputList) (l : Int) : OutputList :=
  if l = st.log_level_filter then st
  else OutputList.log_level_filter_changed { st with log_level_filter := l }

/-- Assigning the paused trait: the change handler fires only when the
value actually changes. -/
def OutputList.set_paused (st : OutputList) (b : Bool) : OutputList :=
  if b = st.paused then st
  else OutputList.paused_changed { st with paused := b }

/-! Sequences of public operations. -/

/-- One public operation on an OutputList. -/
inductive Op where
  | write : String → String → Op
  | write_level : String → Int → String → Op
  | clear : Op
  | set_filter : Int → Op
  | set_paused : Bool → Op
deriving DecidableEq, Repr

/-- Effect of one public operation on the state (log-file output
discarded); none models a failed assertion inside append_truncate. -/
def stepOp (st : OutputList) : Op → Option OutputList
  | Op.write s ts => (st.write s ts).map Prod.fst
  | Op.write_level s l ts => (st.write_level s l ts).map Prod.fst
  | Op.clear => some st.clear
  | Op.set_filter l => some (st.set_log_level_filter l)
  | Op.set_paused b => some (st.set_paused b)

/-- Runs a sequence of public operations. -/
def runOps (st : OutputList) : List Op → Option OutputList
  | [] => some st
  | op :: rest =>
    match stepOp st op with
    | none => none
    | some st1 => runOps st1 rest

/-- Iterated append_truncate on one buffer. -/
def appendAll (max_len : Nat) (buf : List LogItem) : List LogItem → Option (List LogItem)
  | [] => some buf
  | it :: rest =>
    match OutputList.append_truncate max_len buf it with
    | none => none
    | some b => appendAll max_len b rest

/-- Iterated write_level, one call per LogItem, feeding each item as
message, level and timestamp. -/
def write_level_all (st : OutputList) : List LogItem → Option OutputList
  | [] => some st
  | e :: rest =>
    match st.write_level e.msg e.log_level e.timestamp with
    | none => none
    | some (st1, _) => write_level_all st1 rest

/-- All three buffers are within one entry of max_len.  This is the
region in which the assertion of append_truncate cannot fire. -/
def GoodState (st : OutputList) : Prop :=
  st.unfiltered_list.length ≤ st.max_len + 1 ∧
  st.filtered_list.length ≤ st.max_len + 1 ∧
  st.paused_buffer.length ≤ st.max_len + 1

instance (st : OutputList) : Decidable (GoodState st) := by
  unfold GoodState; infer_instance

/-! Embedding of settings_report.py.  Python values reaching this
module are modelled by PyVal: strings, integers and dicts (a dict is
an association list in its iteration order; real Python dicts have
unique keys).  Python exceptions become the PyErr error type of an
Except computation. -/

inductive PyVal where
  | str : String → PyVal
  | int : Int → PyVal
  | dict : List (PyVal × PyVal) → PyVal
deriving Repr

inductive PyErr where
  | keyError : PyErr
  | typeError : PyErr
  | attributeError : PyErr
deriving DecidableEq, Repr

def PyVal.isStr : PyVal → Bool
  | .str _ => true
  | _ => false

def PyVal.isDict : PyVal → Bool
  | .dict _ => true
  | _ => false

/-- Python str() on the values this module passes to it.  A string is
returned unchanged and an integer prints as its decimal form, as in
Python.  The printed form of a dict is not modelled (no claim under
study inspects it); only its type, a string, matters here. -/
def pyStrOf : PyVal → String
  | .str s => s
  | .int n => toString n
  | .dict _ => "dict"

/-- Subscripting v[key] with a string key: a dict yields the first
matching entry or raises KeyError; subscripting a string or an integer
with a string key raises TypeError in Python 2. -/
def pySubscript (v : PyVal) (key : String) : Except PyErr PyVal :=
  match v with
  | .dict entries =>
    match entries.find? (fun e =>
        match e.1 with
        | .str s => decide (s = key)
        | _ => false) with
    | some e => .ok e.2
    | none => .error .keyError
  | _ => .error .typeError

mutual

/-- Function dict_values_to_strings of settings_report.py.  Iterates
the entries of a dict; a non-string key raises TypeError, a dict value
is converted recursively, any other value is replaced by str(value).
Calling it on a non-dict raises (no iteritems attribute). -/
def dict_values_to_strings : PyVal → Except PyErr PyVal
  | .dict entries =>
    match dvts_entries entries with
    | .ok c => .ok (.dict c)
    | .error e => .error e
  | _ => .error .attributeError

/-- The entry loop of dict_values_to_strings. -/
def dvts_entries : List (PyVal × PyVal) → Except PyErr (List (PyVal × PyVal))
  | [] => .ok []
  | (k, v) :: rest =>
    if k.isStr then
      match v with
      | .dict e =>
        match dict_values_to_strings (.dict e) with
        | .error err => .error err
        | .ok cv =>
          match dvts_entries rest with
          | .error err => .error err
          | .ok cr => .ok ((k, cv) :: cr)
      | _ =>
        match dvts_entries rest with
        | .error err => .error err
        | .ok cr => .ok ((k, .str (pyStrOf v)) :: cr)
    else .error .typeError

end

/-- One HTTP POST as issued by post_data: the fixed endpoint and the
two payload components.  Headers and the JSON encoding are constants
of the call site and are not modelled further. -/
structure NetCall where
  uuid : PyVal
  data : PyVal
  url : String
deriving Repr

def REPORT_URL : String :=
  "https://w096929iy3.execute-api.us-east-1.amazonaws.com/prof/catchConsole"

/-- Function post_data: returns (performing no call) when uuid is not
a string or data is not a dict, otherwise performs exactly one POST.
The value is the list of network calls performed. -/
def post_data (uuid : PyVal) (data : PyVal) : List NetCall :=
  if !uuid.isStr then []
  else if !data.isDict then []
  else [⟨uuid, data, REPORT_URL⟩]

/-- The body of the try block of SettingsReport.report_settings:
post_data(str(settings[sys_info][uuid]), dict_values_to_strings(settings)).
Arguments evaluate left to right, so the subscripts and the conversion
run, and may raise, before any network call. -/
def report_settings_body (settings : PyVal) : Except PyErr (List NetCall) := do
  let si ← pySubscript settings "system_info"
  let u ← pySubscript si "uuid"
  let flat ← dict_values_to_strings settings
  pure (post_data (.str (pyStrOf u)) flat)

/-- Method SettingsReport.report_settings: the bare except swallows
every exception of the body, so the caller always gets a normal
return; on failure no network call has been performed (the POST is the
last step of the body). -/
def report_settings (settings : PyVal) : Except PyErr (List NetCall) :=
  match report_settings_body settings with
  | .ok calls => .ok calls
  | .error _ => .ok []

/-! Predicates used to state the claims about dict_values_to_strings. -/

mutual

/-- Every dict key, at every nesting depth through dict values, is a
string. -/
def strKeys : PyVal → Bool
  | .dict e => strKeysEntries e
  | _ => true

def strKeysEntries : List (PyVal × PyVal) → Bool
  | [] => true
  | (k, v) :: rest => k.isStr && strKeys v && strKeysEntries rest

end

mutual

/-- The value is built from strings only: a string, or a dict with
string keys whose values again satisfy allStrings. -/
def allStrings : PyVal → Bool
  | .str _ => true
  | .int _ => false
  | .dict e => allStringsEntries e

def allStringsEntries : List (PyVal × PyVal) → Bool
  | [] => true
  | (k, v) :: rest => k.isStr && allStrings v && allStringsEntries rest

end

mutual

/-- Modelled from the spec: the conversion described by the spec for
the telemetry reporter, which keeps every key, recurses through nested
mappings and replaces every non-mapping value by its string form. -/
def specConvert : PyVal → PyVal
  | .dict e => .dict (specConvertEntries e)
  | v => .str (pyStrOf v)

def specConvertEntries : List (PyVal × PyVal) → List (PyVal × PyVal)
  | [] => []
  | (k, v) :: rest => (k, specConvert v) :: specConvertEntries rest

end

/-! Helper lemmas about append_truncate and operation sequences. -/

/-- On a buffer within one entry of max_len, append_truncate succeeds
and returns the newest-first prefix of the extended buffer. -/
theorem append_truncate_eq (M : Nat) (buf : List LogItem) (s : LogItem)
    (h : buf.length ≤ M + 1) :
    OutputList.append_truncate M buf s
      = some ((s :: buf).take (min (buf.length + 1) (M + 1))) := by
  unfold OutputList.append_truncate
  by_cases hgt : buf.length > M
  · have hlen : buf.length = M + 1 := le_antisymm h hgt
    have hmin : min (buf.length + 1) (M + 1) = M + 1 := by omega
    rw [if_pos hgt, if_pos (by omega), hmin]
    have : (s :: buf).take (M + 1) = s :: buf.take M := by
      simp [List.take_succ_cons]
    rw [this, List.dropLast_eq_take, hlen]
    simp
  · have hle : buf.length ≤ M := by omega
    have hmin : min (buf.length + 1) (M + 1) = buf.length + 1 := by omega
    rw [if_neg hgt, hmin]
    rw [List.take_of_length_le (by simp)]

/-- Success and length bound of append_truncate on a good buffer. -/
theorem append_truncate_good (M : Nat) (buf : List LogItem) (s : LogItem)
    (h : buf.length ≤ M + 1) :
    ∃ r, OutputList.append_truncate M buf s = some r ∧
      r.length = min (buf.length + 1) (M + 1) ∧ r.length ≤ M + 1 := by
  refine ⟨_, append_truncate_eq M buf s h, ?_, ?_⟩
  · simp [List.length_take]
  · simp [List.length_take]

/-- Truncating the second summand before appending changes nothing
once the whole append is truncated to the same length. -/
theorem take_append_take {α : Type} (n : Nat) (A B : List α) :
    (A ++ B.take n).take n = (A ++ B).take n := by
  rw [List.take_append_eq_append_take, List.take_append_eq_append_take,
    List.take_take, Nat.min_eq_left (Nat.sub_le n A.length)]

/-- Iterated append_truncate on a good buffer: the result is the
newest-first sequence of appended items in front of the old buffer,
truncated to capacity max_len + 1. -/
theorem appendAll_eq (M : Nat) (items : List LogItem) :
    ∀ buf : List LogItem, buf.length ≤ M + 1 →
      appendAll M buf items
        = some ((items.reverse ++ buf).take (min (buf.length + items.length) (M + 1))) := by
  induction items with
  | nil =>
    intro buf h
    simp [appendAll, Nat.min_eq_left h, List.take_of_length_le (le_refl buf.length)]
  | cons it rest ih =>
    intro buf h
    have hstep := append_truncate_eq M buf it h
    have hblen : ((it :: buf).take (min (buf.length + 1) (M + 1))).length ≤ M + 1 := by
      simp [List.length_take]
    have hrec := ih ((it :: buf).take (min (buf.length + 1) (M + 1))) hblen
    rw [appendAll, hstep]
    refine hrec.trans ?_
    congr 1
    have hlt : ((it :: buf).take (min (buf.length + 1) (M + 1))).length
        = min (buf.length + 1) (M + 1) := by
      simp [List.length_take]
    rw [hlt]
    have harr : (it :: rest).reverse ++ buf = rest.reverse ++ (it :: buf) := by
      simp
    rw [harr, List.length_cons]
    by_cases hc : buf.length + 1 ≤ M + 1
    · have hm1 : min (buf.length + 1) (M + 1) = buf.length + 1 := by omega
      have hinner : (it :: buf).take (buf.length + 1) = it :: buf :=
        List.take_of_length_le (by simp)
      rw [hm1, hinner]
      congr 1
      omega
    · have hm1 : min (buf.length + 1) (M + 1) = M + 1 := by omega
      have hm2 : min (M + 1 + rest.length) (M + 1) = M + 1 := by omega
      have hm3 : min (buf.length + (rest.length + 1)) (M + 1) = M + 1 := by omega
      rw [hm1, hm2, hm3]
      exact take_append_take (M + 1) rest.reverse (it :: buf)

/-- A write on a good state succeeds, keeps the state good, and, when
the string is non-blank and a log file is enabled, emits exactly one
print_to_log record. -/
theorem write_good (s ts : String) (st : OutputList) (hg : GoodState st) :
    ∃ st1, st.write s ts = some (st1,
        if pyNonBlank s = true then
          (if st.tfile then [LogItem.print_to_log ⟨CONSOLE_LOG_LEVEL, ts, s⟩] else [])
        else []) ∧
      GoodState st1 ∧ st1.max_len = st.max_len := by
  obtain ⟨h1, h2, h3⟩ := hg
  by_cases hnb : pyNonBlank s = true
  · by_cases hp : st.paused = true
    · obtain ⟨pb, hpb, _, hle⟩ :=
        append_truncate_good st.max_len st.paused_buffer ⟨CONSOLE_LOG_LEVEL, ts, s⟩ h3
      refine ⟨{ st with paused_buffer := pb }, ?_, ⟨h1, h2, hle⟩, rfl⟩
      simp [OutputList.write, hnb, hp, hpb]
    · obtain ⟨ul, hul, _, hule⟩ :=
        append_truncate_good st.max_len st.unfiltered_list ⟨CONSOLE_LOG_LEVEL, ts, s⟩ h1
      by_cases hm :
          (LogItem.mk CONSOLE_LOG_LEVEL ts s).matches_log_level_filter st.log_level_filter = true
      · obtain ⟨fl, hfl, _, hfle⟩ :=
          append_truncate_good st.max_len st.filtered_list ⟨CONSOLE_LOG_LEVEL, ts, s⟩ h2
        refine ⟨{ st with unfiltered_list := ul, filtered_list := fl },
          ?_, ⟨hule, hfle, h3⟩, rfl⟩
        simp [OutputList.write, hnb, hp, hul, hm, hfl]
      · refine ⟨{ st with unfiltered_list := ul }, ?_, ⟨hule, h2, h3⟩, rfl⟩
        simp [OutputList.write, hnb, hp, hul, hm]
  · refine ⟨st, ?_, ⟨h1, h2, h3⟩, rfl⟩
    simp [OutputList.write, hnb]

/-- A write_level on a good state succeeds, keeps the state good, and
never emits a log-file record. -/
theorem write_level_good (s : String) (level : Int) (ts : String) (st : OutputList)
    (hg : GoodState st) :
    ∃ st1, st.write_level s level ts = some (st1, []) ∧ GoodState st1 ∧
      st1.max_len = st.max_len := by
  obtain ⟨h1, h2, h3⟩ := hg
  by_cases hnb : pyNonBlank s = true
  · by_cases hp : st.paused = true
    · obtain ⟨pb, hpb, _, hle⟩ :=
        append_truncate_good st.max_len st.paused_buffer ⟨level, ts, s⟩ h3
      refine ⟨{ st with paused_buffer := pb }, ?_, ⟨h1, h2, hle⟩, rfl⟩
      simp [OutputList.write_level, hnb, hp, hpb]
    · obtain ⟨ul, hul, _, hule⟩ :=
        append_truncate_good st.max_len st.unfiltered_list ⟨level, ts, s⟩ h1
      by_cases hm :
          (LogItem.mk level ts s).matches_log_level_filter st.log_level_filter = true
      · obtain ⟨fl, hfl, _, hfle⟩ :=
          append_truncate_good st.max_len st.filtered_list ⟨level, ts, s⟩ h2
        refine ⟨{ st with unfiltered_list := ul, filtered_list := fl },
          ?_, ⟨hule, hfle, h3⟩, rfl⟩
        simp [OutputList.write_level, hnb, hp, hul, hm, hfl]
      · refine ⟨{ st with unfiltered_list := ul }, ?_, ⟨hule, h2, h3⟩, rfl⟩
        simp [OutputList.write_level, hnb, hp, hul, hm]
  · refine ⟨st, ?_, ⟨h1, h2, h3⟩, rfl⟩
    simp [OutputList.write_level, hnb]

/-- Every public operation on a good state succeeds, keeps the state
good and never changes max_len. -/
theorem stepOp_good (st : OutputList) (op : Op) (hg : GoodState st) :
    ∃ st1, stepOp st op = some st1 ∧ GoodState st1 ∧ st1.max_len = st.max_len := by
  obtain ⟨h1, h2, h3⟩ := hg
  cases op with
  | write s ts =>
    obtain ⟨st1, heq, hgood, hmax⟩ := write_good s ts st ⟨h1, h2, h3⟩
    exact ⟨st1, by simp [stepOp, heq], hgood, hmax⟩
  | write_level s l ts =>
    obtain ⟨st1, heq, hgood, hmax⟩ := write_level_good s l ts st ⟨h1, h2, h3⟩
    exact ⟨st1, by simp [stepOp, heq], hgood, hmax⟩
  | clear =>
    exact ⟨st.clear, rfl, ⟨by simp [OutputList.clear], by simp [OutputList.clear],
      by simp [OutputList.clear]⟩, rfl⟩
  | set_filter l =>
    refine ⟨st.set_log_level_filter l, rfl, ?_, ?_⟩
    · by_cases hl : l = st.log_level_filter
      · simpa [OutputList.set_log_level_filter, hl] using
          (⟨h1, h2, h3⟩ : GoodState st)
      · refine ⟨?_, ?_, ?_⟩ <;>
          simp [OutputList.set_log_level_filter, hl, OutputList.log_level_filter_changed]
        · exact h1
        · exact le_trans (List.length_filter_le _ _) h1
        · exact h3
    · by_cases hl : l = st.log_level_filter <;>
        simp [OutputList.set_log_level_filter, hl, OutputList.log_level_filter_changed]
  | set_paused b =>
    refine ⟨st.set_paused b, rfl, ?_, ?_⟩
    · by_cases hb : b = st.paused
      · simpa [OutputList.set_paused, hb] using (⟨h1, h2, h3⟩ : GoodState st)
      · cases b with
        | true =>
          refine ⟨?_, ?_, ?_⟩ <;>
            simp [OutputList.set_paused, hb, OutputList.paused_changed]
          · exact h1
          · exact h2
          · exact h1
        | false =>
          refine ⟨?_, ?_, ?_⟩ <;>
            simp [OutputList.set_paused, hb, OutputList.paused_changed,
              OutputList.log_level_filter_changed]
          · exact h3
          · exact le_trans (List.length_filter_le _ _) h3
    · by_cases hb : b = st.paused
      · simp [OutputList.set_paused, hb]
      · cases b <;>
          simp [OutputList.set_paused, hb, OutputList.paused_changed,
            OutputList.log_level_filter_changed]

/-- The initial state is good. -/
theorem init_good (tf : Bool) (f : Int) (m : Nat) : GoodState (OutputList.init tf f m) := by
  refine ⟨?_, ?_, ?_⟩ <;> simp [OutputList.init]

/-- A whole sequence of public operations on a good state succeeds,
ends in a good state and never changes max_len. -/
theorem runOps_good (ops : List Op) :
    ∀ st : OutputList, GoodState st →
      ∃ st1, runOps st ops = some st1 ∧ GoodState st1 ∧ st1.max_len = st.max_len := by
  induction ops with
  | nil => exact fun st hg => ⟨st, rfl, hg, rfl⟩
  | cons op rest ih =>
    intro st hg
    obtain ⟨st1, heq, hgood, hmax⟩ := stepOp_good st op hg
    obtain ⟨st2, heq2, hgood2, hmax2⟩ := ih st1 hgood
    exact ⟨st2, by simp [runOps, heq, heq2], hgood2, by rw [hmax2, hmax]⟩

/-- Exact effect of an unpaused write whose item passes the filter. -/
theorem write_eq (s ts : String) (st : OutputList) (hnb : pyNonBlank s = true)
    (hp : st.paused = false) (hg : GoodState st)
    (hm : (LogItem.mk CONSOLE_LOG_LEVEL ts s).matches_log_level_filter st.log_level_filter
      = true) :
    st.write s ts = some
      ({ st with
          unfiltered_list := (⟨CONSOLE_LOG_LEVEL, ts, s⟩ :: st.unfiltered_list).take
            (min (st.unfiltered_list.length + 1) (st.max_len + 1)),
          filtered_list := (⟨CONSOLE_LOG_LEVEL, ts, s⟩ :: st.filtered_list).take
            (min (st.filtered_list.length + 1) (st.max_len + 1)) },
        if st.tfile then [LogItem.print_to_log ⟨CONSOLE_LOG_LEVEL, ts, s⟩] else []) := by
  simp [OutputList.write, hnb, hp, hm,
    append_truncate_eq _ _ _ hg.1, append_truncate_eq _ _ _ hg.2.1]

/-- Exact effect of a write_level while paused. -/
theorem write_level_paused_eq (s : String) (level : Int) (ts : String) (st : OutputList)
    (hnb : pyNonBlank s = true) (hp : st.paused = true)
    (h3 : st.paused_buffer.length ≤ st.max_len + 1) :
    st.write_level s level ts = some
      ({ st with
          paused_buffer := (⟨level, ts, s⟩ :: st.paused_buffer).take
            (min (st.paused_buffer.length + 1) (st.max_len + 1)) }, []) := by
  simp [OutputList.write_level, hnb, hp, append_truncate_eq _ _ _ h3]

/-- While paused, a sequence of non-blank write_level calls only feeds
the pause buffer, exactly as iterated append_truncate would. -/
theorem write_level_all_paused (entries : List LogItem) :
    ∀ st : OutputList, st.paused = true →
      (∀ e ∈ entries, pyNonBlank e.msg = true) →
      st.paused_buffer.length ≤ st.max_len + 1 →
      ∃ pb, appendAll st.max_len st.paused_buffer entries = some pb ∧
        write_level_all st entries = some { st with paused_buffer := pb } := by
  induction entries with
  | nil => exact fun st hp hnb h3 => ⟨st.paused_buffer, rfl, rfl⟩
  | cons e rest ih =>
    intro st hp hnb h3
    have hstep := write_level_paused_eq e.msg e.log_level e.timestamp st
      (hnb e (List.mem_cons_self e rest)) hp h3
    have hblen :
        ((⟨e.log_level, e.timestamp, e.msg⟩ :: st.paused_buffer).take
            (min (st.paused_buffer.length + 1) (st.max_len + 1))).length
          ≤ st.max_len + 1 := by
      simp [List.length_take]
    obtain ⟨pb, hpb, hrun⟩ := ih
      { st with
        paused_buffer := (⟨e.log_level, e.timestamp, e.msg⟩ :: st.paused_buffer).take
          (min (st.paused_buffer.length + 1) (st.max_len + 1)) }
      hp (fun x hx => hnb x (List.mem_cons_of_mem e hx)) hblen
    refine ⟨pb, ?_, ?_⟩
    · rw [appendAll, append_truncate_eq _ _ _ h3]
      exact hpb
    · rw [write_level_all, hstep]
      exact hrun

/-- The blankness guard: a string whose characters are all whitespace
(the empty string included) fails the guard of write and write_level. -/
theorem pyNonBlank_of_blank (s : String)
    (hb : ∀ c ∈ s.data, isPySpaceChar c = true) : pyNonBlank s = false := by
  have hall : s.data.all isPySpaceChar = true := List.all_eq_true.mpr hb
  by_cases he : s.data.isEmpty = true
  · simp [pyNonBlank, he]
  · simp [pyNonBlank, pyIsSpace, he, hall]

/-! Lemmas about dict_values_to_strings. -/

/-- On entry lists whose keys are strings at every depth, the entry
loop returns exactly the conversion the spec describes. -/
theorem dvts_entries_ok : ∀ e : List (PyVal × PyVal), strKeysEntries e = true →
    dvts_entries e = .ok (specConvertEntries e)
  | [], _ => by simp [dvts_entries, specConvertEntries]
  | (k, v) :: rest, h => by
    rw [strKeysEntries] at h
    simp only [Bool.and_eq_true] at h
    obtain ⟨⟨hk, hv⟩, hrest⟩ := h
    have hr := dvts_entries_ok rest hrest
    cases v with
    | dict e2 =>
      have h2 : dvts_entries e2 = .ok (specConvertEntries e2) :=
        dvts_entries_ok e2 (by simpa [strKeys] using hv)
      simp [dvts_entries, hk, dict_values_to_strings, h2, hr,
        specConvertEntries, specConvert]
    | str s' =>
      simp [dvts_entries, hk, hr, specConvertEntries, specConvert, pyStrOf]
    | int n =>
      simp [dvts_entries, hk, hr, specConvertEntries, specConvert, pyStrOf]
termination_by e => sizeOf e

/-- As soon as some key (at any depth through dict values) is not a
string, the entry loop raises TypeError. -/
theorem dvts_entries_err : ∀ e : List (PyVal × PyVal), strKeysEntries e = false →
    dvts_entries e = .error .typeError
  | [], h => by simp [strKeysEntries] at h
  | (k, v) :: rest, h => by
    rw [strKeysEntries] at h
    by_cases hk : k.isStr = true
    · simp only [hk, Bool.true_and] at h
      cases v with
      | dict e2 =>
        by_cases h2 : strKeysEntries e2 = true
        · have hv : strKeys (PyVal.dict e2) = true := by simpa [strKeys] using h2
          rw [hv, Bool.true_and] at h
          simp [dvts_entries, hk, dict_values_to_strings, dvts_entries_ok e2 h2,
            dvts_entries_err rest h]
        · have h2f : strKeysEntries e2 = false := by
            cases hcc : strKeysEntries e2 with
            | true => exact absurd hcc h2
            | false => rfl
          simp [dvts_entries, hk, dict_values_to_strings, dvts_entries_err e2 h2f]
      | str s' =>
        rw [strKeys, Bool.true_and] at h
        simp [dvts_entries, hk, dvts_entries_err rest h]
        exact fun a ha => PyVal.noConfusion ha
      | int n =>
        rw [strKeys, Bool.true_and] at h
        simp [dvts_entries, hk, dvts_entries_err rest h]
        exact fun a ha => PyVal.noConfusion ha
    · have hkf : k.isStr = false := by
        cases hcc : k.isStr with
        | true => exact absurd hcc hk
        | false => rfl
      rw [dvts_entries.eq_def]
      exact dif_neg hk
termination_by e => sizeOf e

/-- The spec-side conversion keeps every key in place. -/
theorem specConvertEntries_keys : ∀ e : List (PyVal × PyVal),
    (specConvertEntries e).map Prod.fst = e.map Prod.fst
  | [] => rfl
  | (k, v) :: rest => by
    simp [specConvertEntries, specConvertEntries_keys rest]

/-- On string-keyed input the spec-side conversion produces a value
built from strings only. -/
theorem specConvertEntries_allStrings : ∀ e : List (PyVal × PyVal),
    strKeysEntries e = true → allStringsEntries (specConvertEntries e) = true
  | [], _ => rfl
  | (k, v) :: rest, h => by
    rw [strKeysEntries] at h
    simp only [Bool.and_eq_true] at h
    obtain ⟨⟨hk, hv⟩, hrest⟩ := h
    have hr := specConvertEntries_allStrings rest hrest
    cases v with
    | dict e2 =>
      have h2 := specConvertEntries_allStrings e2 (by simpa [strKeys] using hv)
      simp [specConvertEntries, allStringsEntries, specConvert, allStrings, hk, h2, hr]
    | str s' =>
      simp [specConvertEntries, allStringsEntries, specConvert, allStrings, hk, hr, pyStrOf]
    | int n =>
      simp [specConvertEntries, allStringsEntries, specConvert, allStrings, hk, hr, pyStrOf]
termination_by e => sizeOf e

/-! Sample states used to instantiate theorems with hypotheses. -/

/-- A small unpaused state with a log file enabled. -/
def sampleState : OutputList :=
  { unfiltered_list := [⟨LOG_WARN, "t1", "alpha"⟩, ⟨LOG_ERROR, "t0", "beta"⟩]
    paused_buffer := []
    filtered_list := [⟨LOG_ERROR, "t0", "beta"⟩]
    log_level_filter := LOG_ERROR
    max_len := 5
    paused := false
    tfile := true }

/-- The same state in the paused configuration. -/
def samplePausedState : OutputList :=
  { sampleState with paused := true, paused_buffer := sampleState.unfiltered_list }

/-- Entry list used to instantiate the telemetry conversion theorem. -/
def sampleEntries : List (PyVal × PyVal) :=
  [(.str "a", .int 5), (.str "b", .dict [(.str "c", .int 7)])]

/-! Claim theorems. -/

/-- Claim C1, amended: for every sequence of public operations on a
fresh OutputList with integer max_len m, every append succeeds and the
live (unfiltered) buffer length never exceeds m + 1.  The claim as
stated bounded the length by m; the counterexample shows the code
keeps the buffer at m + 1 entries, because append_truncate evicts
before inserting only when the buffer already exceeds max_len. -/
theorem live_buffer_bounded_by_capacity (tf : Bool) (f : Int) (m : Nat) (ops : List Op) :
    ∃ st, runOps (OutputList.init tf f m) ops = some st ∧
      st.unfiltered_list.length ≤ m + 1 := by
  obtain ⟨st, heq, hgood, hmax⟩ := runOps_good ops (OutputList.init tf f m) (init_good tf f m)
  refine ⟨st, heq, ?_⟩
  have h := hgood.1
  rw [hmax] at h
  simpa [OutputList.init] using h

/-- Claim C1, counterexample: with max_len = 1, two write_level calls
leave the live buffer at length 2, already exceeding max_len right
after the second append completes. -/
theorem live_buffer_exceeds_max_len :
    (runOps (OutputList.init false LOG_ERROR 1)
      [Op.write_level "a" LOG_ERROR "t1", Op.write_level "b" LOG_ERROR "t2"]).map
        (fun st => decide (st.unfiltered_list.length ≤ st.max_len)) = some false := by
  rfl

/-- Claim C3: on every state reachable through the public operations
from a fresh OutputList with integer max_len m, no buffer length ever
exceeds m + 1, and hence the fatal assertion inside append_truncate
(modelled as the none result of runOps) never fails. -/
theorem buffers_never_exceed_max_len_plus_one (tf : Bool) (f : Int) (m : Nat)
    (ops : List Op) :
    ∃ st, runOps (OutputList.init tf f m) ops = some st ∧
      st.unfiltered_list.length ≤ m + 1 ∧
      st.filtered_list.length ≤ m + 1 ∧
      st.paused_buffer.length ≤ m + 1 := by
  obtain ⟨st, heq, hgood, hmax⟩ := runOps_good ops (OutputList.init tf f m) (init_good tf f m)
  obtain ⟨hh1, hh2, hh3⟩ := hgood
  rw [hmax] at hh1 hh2 hh3
  exact ⟨st, heq, by simpa [OutputList.init] using hh1,
    by simpa [OutputList.init] using hh2, by simpa [OutputList.init] using hh3⟩

/-- Claim C2: immediately after a filter-threshold change, in any
state whatsoever (paused or not), and immediately after a
pause-to-unpause transition, the filtered view is exactly the
subsequence of the live buffer whose entries pass the current
threshold.  Each event carries only its own premise: the threshold
half needs the value to actually change (the trait handler fires on
change), the unpause half needs the state to have been paused. -/
theorem filtered_view_rebuild_exact (st : OutputList) (l : Int) :
    (l ≠ st.log_level_filter →
      (st.set_log_level_filter l).filtered_list
        = (st.set_log_level_filter l).unfiltered_list.filter
            (fun it => it.matches_log_level_filter
              (st.set_log_level_filter l).log_level_filter)) ∧
    (st.paused = true →
      (st.set_paused false).filtered_list
        = (st.set_paused false).unfiltered_list.filter
            (fun it => it.matches_log_level_filter
              (st.set_paused false).log_level_filter)) := by
  constructor
  · intro hl
    simp [OutputList.set_log_level_filter, hl, OutputList.log_level_filter_changed]
  · intro hp
    have hne : ¬ (false = st.paused) := by simp [hp]
    simp [OutputList.set_paused, hne, OutputList.paused_changed,
      OutputList.log_level_filter_changed]

/-- Claim C2 witness: a threshold change on a concrete unpaused state,
and an unpause of a concrete paused state. -/
theorem filtered_view_rebuild_exact_witness :
    ((sampleState.set_log_level_filter LOG_INFO).filtered_list
      = (sampleState.set_log_level_filter LOG_INFO).unfiltered_list.filter
          (fun it => it.matches_log_level_filter
            (sampleState.set_log_level_filter LOG_INFO).log_level_filter)) ∧
    ((samplePausedState.set_paused false).filtered_list
      = (samplePausedState.set_paused false).unfiltered_list.filter
          (fun it => it.matches_log_level_filter
            (samplePausedState.set_paused false).log_level_filter)) :=
  ⟨(filtered_view_rebuild_exact sampleState LOG_INFO).1 (by decide),
   (filtered_view_rebuild_exact samplePausedState LOG_INFO).2 rfl⟩

/-- Claim C4: pausing, appending non-blank entries via write_level,
then unpausing yields a live buffer equal to the new entries prepended
newest-first to the pre-pause buffer (truncated to the working
capacity max_len + 1), empties the pause buffer, and rebuilds the
filtered view from the new live buffer. -/
theorem pause_resume_prepends_entries (st : OutputList) (entries : List LogItem)
    (hp : st.paused = false)
    (hlen : st.unfiltered_list.length ≤ st.max_len + 1)
    (hnb : ∀ e ∈ entries, pyNonBlank e.msg = true) :
    ∃ st2, write_level_all (st.set_paused true) entries = some st2 ∧
      (st2.set_paused false).unfiltered_list
        = (entries.reverse ++ st.unfiltered_list).take
            (min (st.unfiltered_list.length + entries.length) (st.max_len + 1)) ∧
      (st2.set_paused false).paused_buffer = [] ∧
      (st2.set_paused false).filtered_list
        = (st2.set_paused false).unfiltered_list.filter
            (fun it => it.matches_log_level_filter st.log_level_filter) := by
  have hne : ¬ (true = st.paused) := by simp [hp]
  have hset : st.set_paused true
      = { st with paused := true, paused_buffer := st.unfiltered_list } := by
    simp [OutputList.set_paused, hne, OutputList.paused_changed]
  obtain ⟨pb, hpb, hrun⟩ := write_level_all_paused entries (st.set_paused true)
    (by rw [hset]) hnb (by rw [hset]; exact hlen)
  have hpb2 : appendAll st.max_len st.unfiltered_list entries
      = some ((entries.reverse ++ st.unfiltered_list).take
          (min (st.unfiltered_list.length + entries.length) (st.max_len + 1))) :=
    appendAll_eq st.max_len entries st.unfiltered_list hlen
  rw [hset] at hpb hrun
  have hpbv : pb = (entries.reverse ++ st.unfiltered_list).take
      (min (st.unfiltered_list.length + entries.length) (st.max_len + 1)) :=
    Option.some.inj (hpb.symm.trans hpb2)
  rw [hset]
  refine ⟨_, hrun, ?_, ?_, ?_⟩ <;>
    simp [OutputList.set_paused, OutputList.paused_changed,
      OutputList.log_level_filter_changed, hpbv]

/-- Claim C4 witness: one non-blank entry appended across a
pause-resume cycle of a concrete state. -/
theorem pause_resume_prepends_entries_witness :
    ∃ st2, write_level_all (sampleState.set_paused true)
        [⟨LOG_INFO, "t3", "gamma"⟩] = some st2 ∧
      (st2.set_paused false).unfiltered_list
        = (([⟨LOG_INFO, "t3", "gamma"⟩] : List LogItem).reverse
            ++ sampleState.unfiltered_list).take
            (min (sampleState.unfiltered_list.length
              + ([⟨LOG_INFO, "t3", "gamma"⟩] : List LogItem).length)
              (sampleState.max_len + 1)) ∧
      (st2.set_paused false).paused_buffer = [] ∧
      (st2.set_paused false).filtered_list
        = (st2.set_paused false).unfiltered_list.filter
            (fun it => it.matches_log_level_filter sampleState.log_level_filter) :=
  pause_resume_prepends_entries sampleState [⟨LOG_INFO, "t3", "gamma"⟩]
    rfl (by decide) (by decide)

/-- Claim C5: writing a string that is empty or whitespace-only,
through write or through write_level, creates no LogItem, writes no
log-file record, and leaves the whole state (live buffer, filtered
view and pause buffer included) unchanged. -/
theorem blank_write_changes_nothing (st : OutputList) (s ts : String) (level : Int)
    (hb : ∀ c ∈ s.data, isPySpaceChar c = true) :
    st.write s ts = some (st, []) ∧ st.write_level s level ts = some (st, []) := by
  have hnb := pyNonBlank_of_blank s hb
  constructor
  · simp [OutputList.write, hnb]
  · simp [OutputList.write_level, hnb]

/-- Claim C5 witness at a whitespace string and a concrete state. -/
theorem blank_write_changes_nothing_witness :
    OutputList.write " \t" "t5" sampleState = some (sampleState, []) ∧
      OutputList.write_level " \t" LOG_WARN "t5" sampleState = some (sampleState, []) :=
  blank_write_changes_nothing sampleState " \t" "t5" LOG_WARN (by decide)

/-- Claim C6: report_settings always returns normally (the bare except
swallows every exception of its body); post_data called with a
non-string uuid or a non-dict data performs no network call; and
report_settings on an empty settings dict performs no network call
(the system_info lookup raises KeyError before the POST is reached). -/
theorem report_settings_never_raises :
    (∀ s : PyVal, ∃ calls, report_settings s = .ok calls) ∧
    (∀ u d : PyVal, u.isStr = false ∨ d.isDict = false → post_data u d = []) ∧
    report_settings (.dict []) = .ok [] := by
  refine ⟨?_, ?_, rfl⟩
  · intro s
    cases h : report_settings_body s with
    | ok c => exact ⟨c, by simp [report_settings, h]⟩
    | error e => exact ⟨[], by simp [report_settings, h]⟩
  · intro u d h
    rcases h with h | h
    · simp [post_data, h]
    · cases hu : u.isStr <;> simp [post_data, hu, h]

/-- Claim C6 witness: a non-string uuid produces no network call. -/
theorem report_settings_never_raises_witness :
    post_data (PyVal.int 0) (PyVal.dict []) = [] :=
  report_settings_never_raises.2.1 (PyVal.int 0) (PyVal.dict []) (Or.inl rfl)

/-- Claim C7: on a dict whose keys are strings at every nesting depth,
dict_values_to_strings returns the dict with the same keys in order,
nested dicts converted recursively and every other value replaced by
its string form, so the result is built from strings only; on a dict
with a non-string key at any depth it raises TypeError. -/
theorem dict_values_to_strings_correct (e : List (PyVal × PyVal)) :
    (strKeysEntries e = true →
      dict_values_to_strings (.dict e) = .ok (.dict (specConvertEntries e)) ∧
      (specConvertEntries e).map Prod.fst = e.map Prod.fst ∧
      allStrings (.dict (specConvertEntries e)) = true) ∧
    (strKeysEntries e = false →
      dict_values_to_strings (.dict e) = .error .typeError) := by
  constructor
  · intro h
    refine ⟨?_, specConvertEntries_keys e, ?_⟩
    · simp [dict_values_to_strings, dvts_entries_ok e h]
    · simpa [allStrings] using specConvertEntries_allStrings e h
  · intro h
    simp [dict_values_to_strings, dvts_entries_err e h]

/-- Claim C7 witness on a nested two-entry dict. -/
theorem dict_values_to_strings_correct_witness :
    dict_values_to_strings (.dict sampleEntries)
        = .ok (.dict (specConvertEntries sampleEntries)) ∧
      (specConvertEntries sampleEntries).map Prod.fst = sampleEntries.map Prod.fst ∧
      allStrings (.dict (specConvertEntries sampleEntries)) = true :=
  (dict_values_to_strings_correct sampleEntries).1 (by decide)


/-- Claim C8, amended: log-file records are produced only by write.  A
non-blank write with the log file enabled emits exactly one record of
the form timestamp,level,message followed by a newline character,
which is exactly one line whenever the timestamp and the message
contain no newline; write_level appends its entry without ever writing
a log-file record.  The claim as stated had every write_level entry
producing a log line too; the counterexample refutes that. -/
theorem log_file_record_format (st : OutputList) (s ts : String) (level : Int)
    (hnb : pyNonBlank s = true) (ht : st.tfile = true) (hg : GoodState st) :
    (∃ st1, st.write s ts = some (st1, [LogItem.print_to_log ⟨CONSOLE_LOG_LEVEL, ts, s⟩])) ∧
    LogItem.print_to_log ⟨level, ts, s⟩
      = ts ++ "," ++ toString level ++ "," ++ s ++ "\n" ∧
    (ts.data.count '\n' = 0 → s.data.count '\n' = 0 →
      (LogItem.print_to_log ⟨CONSOLE_LOG_LEVEL, ts, s⟩).data.count '\n' = 1) ∧
    (∃ st2, st.write_level s level ts = some (st2, [])) := by
  refine ⟨?_, rfl, ?_, ?_⟩
  · obtain ⟨st1, heq, _, _⟩ := write_good s ts st hg
    rw [if_pos hnb, if_pos ht] at heq
    exact ⟨st1, heq⟩
  · intro h1 h2
    simp [LogItem.print_to_log, String.data_append, List.count_append, h1, h2]
    decide
  · obtain ⟨st2, heq, _, _⟩ := write_level_good s level ts st hg
    exact ⟨st2, heq⟩

/-- Claim C8, counterexample: a non-blank write_level on a fresh state
with the log file enabled appends its entry (the live buffer grows to
one element) yet produces no log-file record at all. -/
theorem write_level_writes_no_log_record :
    (OutputList.write_level "hello" LOG_ERROR "t1" (OutputList.init true LOG_ERROR 250)).map
      (fun r => (r.2, r.1.unfiltered_list.length)) = some ([], 1) := by
  rfl

/-- Claim C8 witness at a concrete state with the log file enabled. -/
theorem log_file_record_format_witness :
    (∃ st1, OutputList.write "note" "t9" sampleState
        = some (st1, [LogItem.print_to_log ⟨CONSOLE_LOG_LEVEL, "t9", "note"⟩])) ∧
    LogItem.print_to_log ⟨LOG_WARN, "t9", "note"⟩
      = "t9" ++ "," ++ toString LOG_WARN ++ "," ++ "note" ++ "\n" ∧
    ("t9".data.count '\n' = 0 → "note".data.count '\n' = 0 →
      (LogItem.print_to_log ⟨CONSOLE_LOG_LEVEL, "t9", "note"⟩).data.count '\n' = 1) ∧
    (∃ st2, OutputList.write_level "note" LOG_WARN "t9" sampleState = some (st2, [])) :=
  log_file_record_format sampleState "note" "t9" LOG_WARN (by decide) rfl (by decide)

/-- Claim C9: from an empty buffer with the filter threshold at
LOG_ERROR, writing hello at LOG_WARN and then world at LOG_ERROR
leaves the filtered view holding exactly the single world entry at
level LOG_ERROR. -/
theorem filtered_view_example :
    (runOps (OutputList.init false LOG_ERROR DEFAULT_MAX_LEN)
      [Op.write_level "hello" LOG_WARN "Jan 01 2026 00:00:00",
       Op.write_level "world" LOG_ERROR "Jan 01 2026 00:00:01"]).map
        (fun st => st.filtered_list)
      = some [⟨LOG_ERROR, "Jan 01 2026 00:00:01", "world"⟩] := by
  rfl

/-- Claim C10: a CONSOLE_LOG_LEVEL entry passes the filter for every
threshold selectable from SYSLOG_LEVELS, so a non-blank write on an
unpaused state always lands at the front of the filtered view,
whatever the current threshold. -/
theorem console_entries_unmaskable (st : OutputList) (s ts : String) (t : Int)
    (ht : t ∈ SYSLOG_LEVELS.map Prod.fst)
    (hf : st.log_level_filter ∈ SYSLOG_LEVELS.map Prod.fst)
    (hp : st.paused = false) (hnb : pyNonBlank s = true) (hg : GoodState st) :
    LogItem.matches_log_level_filter ⟨CONSOLE_LOG_LEVEL, ts, s⟩ t = true ∧
    ∃ st1 out, st.write s ts = some (st1, out) ∧
      st1.filtered_list.head? = some ⟨CONSOLE_LOG_LEVEL, ts, s⟩ := by
  have hmt : ∀ u : Int, u ∈ SYSLOG_LEVELS.map Prod.fst →
      LogItem.matches_log_level_filter ⟨CONSOLE_LOG_LEVEL, ts, s⟩ u = true := by
    intro u hu
    simp [SYSLOG_LEVELS, LOG_ERROR, LOG_WARN, LOG_INFO, LOG_DEBUG] at hu
    rcases hu with h | h | h | h <;> subst h <;>
      simp [LogItem.matches_log_level_filter, CONSOLE_LOG_LEVEL]
  refine ⟨hmt t ht, ?_⟩
  have hm : (LogItem.mk CONSOLE_LOG_LEVEL ts s).matches_log_level_filter st.log_level_filter
      = true := hmt st.log_level_filter hf
  rw [write_eq s ts st hnb hp hg hm]
  refine ⟨_, _, rfl, ?_⟩
  obtain ⟨m', hm'⟩ : ∃ m', min (st.filtered_list.length + 1) (st.max_len + 1) = m' + 1 :=
    ⟨min (st.filtered_list.length + 1) (st.max_len + 1) - 1, by omega⟩
  simp [hm', List.take_succ_cons]

/-- Claim C10 witness at the deepest selectable threshold LOG_DEBUG. -/
theorem console_entries_unmaskable_witness :
    LogItem.matches_log_level_filter ⟨CONSOLE_LOG_LEVEL, "t4", "note"⟩ LOG_DEBUG = true ∧
    ∃ st1 out, OutputList.write "note" "t4" sampleState = some (st1, out) ∧
      st1.filtered_list.head? = some ⟨CONSOLE_LOG_LEVEL, "t4", "note"⟩ :=
  console_entries_unmaskable sampleState "note" "t4" LOG_DEBUG (by decide) (by decide)
    rfl (by decide) (by decide)
